import Mathlib

/-!
Verification of the market-calendar helpers of
`gamestonk_terminal/helper_funcs.py` (`us_market_holidays`,
`b_is_stock_market_open`, `get_next_stock_market_days`,
`get_last_time_market_was_open`).

Modelling conventions:

* A timestamp (Python naive-Eastern `datetime`) is an `Int`: seconds since
  1970-01-01 00:00:00.  `datetime + timedelta(hours=24)` is wall-clock
  arithmetic, i.e. `+ 86400`.  Sub-second precision is irrelevant to every
  branch of the code, so seconds granularity is exact.
* A `datetime.date` is an `Int`: days since 1970-01-01 (a Thursday).
  `civilFromDays` / `daysFromCivil` convert to and from Gregorian
  year/month/day triples (standard civil-calendar algorithms).
* The external `holidays.US` collaborator is a parameter
  `ext : List Int → List (Int × String)`: for a list of years it yields the
  ordered association list of (date, holiday name) pairs, exactly the
  key/value view that `us_market_holidays` iterates over.
* Python dynamic values that flow into the `str in list-of-dates`
  membership tests are modelled by `PyVal`, whose `BEq` instance mirrors
  Python `==` on mixed `str`/`date` operands (always `False`).
* A Python function that can raise (the `good_fridays[year]` `KeyError`,
  or unbounded recursion/looping, modelled by fuel) returns an `Option`.
-/

/-- Python `date.weekday()`: Monday = 0 … Sunday = 6.  Day 0 = 1970-01-01
is a Thursday, i.e. weekday 3. -/
def weekday (d : Int) : Int := (d + 3) % 7

/-- The calendar date (days since epoch) of a timestamp in seconds. -/
def dateOf (t : Int) : Int := t / 86400

/-- The clock value (seconds past midnight) of a timestamp. -/
def secOfDay (t : Int) : Int := t % 86400

/-- Gregorian (year, month, day) of a day number (days since 1970-01-01);
the standard civil-from-days algorithm. -/
def civilFromDays (z0 : Int) : Int × Int × Int :=
  let z := z0 + 719468
  let era := z / 146097
  let doe := z % 146097
  let yoe := (doe - doe / 1460 + doe / 36524 - doe / 146096) / 365
  let y := yoe + era * 400
  let doy := doe - (365 * yoe + yoe / 4 - yoe / 100)
  let mp := (5 * doy + 2) / 153
  let d := doy - (153 * mp + 2) / 5 + 1
  let m := mp + (if mp < 10 then 3 else -9)
  (if m ≤ 2 then y + 1 else y, m, d)

/-- Day number (days since 1970-01-01) of a Gregorian (year, month, day);
the standard days-from-civil algorithm. -/
def daysFromCivil (y0 m d : Int) : Int :=
  let y := if m ≤ 2 then y0 - 1 else y0
  let era := y / 400
  let yoe := y - era * 400
  let mp := (m + 9) % 12
  let doy := (153 * mp + 2) / 5 + d - 1
  let doe := yoe * 365 + yoe / 4 - yoe / 100 + doy
  era * 146097 + doe - 719468

/-- The year component of a day number (Python `date.year`). -/
def yearOf (d : Int) : Int := (civilFromDays d).1

/-- Zero-padded decimal rendering, as Python `%Y` / `%m` / `%d`. -/
def padNum (width : Nat) (n : Int) : String :=
  let s := toString n
  String.mk (List.replicate (width - s.length) '0') ++ s

/-- Python `strftime("%Y-%m-%d")` applied to the date of a timestamp. -/
def strftimeYMD (d : Int) : String :=
  let c := civilFromDays d
  padNum 4 c.1 ++ "-" ++ padNum 2 c.2.1 ++ "-" ++ padNum 2 c.2.2

/-- A Python runtime value appearing in the holiday-membership tests:
either a `datetime.date` (day number) or a `str`. -/
inductive PyVal where
  | date (d : Int)
  | str (s : String)
deriving DecidableEq, Repr

/-- Python `==` on such values: equality within one type, and `False`
between a `str` and a `date` (both sides return `NotImplemented`, so
Python falls back to identity, which is false for distinct objects). -/
def pyEq : PyVal → PyVal → Bool
  | .date a, .date b => a == b
  | .str a, .str b => a == b
  | _, _ => false

instance : BEq PyVal := ⟨pyEq⟩

/-- The external `holidays.US` source: years ↦ ordered (date, name) list. -/
abbrev ExtSource := List Int → List (Int × String)

/-- The seven NYSE holiday names hard-coded in `us_market_holidays`. -/
def market_holidays : List String :=
  ["Martin Luther King Jr. Day",
   "Washington's Birthday",
   "Memorial Day",
   "Independence Day",
   "Labor Day",
   "Thanksgiving",
   "Christmas Day"]

/-- `market_holidays + [h + " (Observed)" for h in market_holidays]`. -/
def market_and_observed_holidays : List String :=
  market_holidays ++ market_holidays.map (fun h => h ++ " (Observed)")

/-- The hard-coded `good_fridays` dict: year ↦ Good Friday (y, m, d)
(the source stores the dates as "YYYY-MM-DD" strings and parses them
with `strptime`; the parsed triples are inlined here). -/
def good_fridays : List (Int × (Int × Int × Int)) :=
  [(2010, (2010, 4, 2)),
   (2011, (2011, 4, 22)),
   (2012, (2012, 4, 6)),
   (2013, (2013, 3, 29)),
   (2014, (2014, 4, 18)),
   (2015, (2015, 4, 3)),
   (2016, (2016, 3, 25)),
   (2017, (2017, 4, 14)),
   (2018, (2018, 3, 30)),
   (2019, (2019, 4, 19)),
   (2020, (2020, 4, 10)),
   (2021, (2021, 4, 2)),
   (2022, (2022, 4, 15)),
   (2023, (2023, 4, 7)),
   (2024, (2024, 3, 29)),
   (2025, (2025, 4, 18)),
   (2026, (2026, 4, 3)),
   (2027, (2027, 3, 26)),
   (2028, (2028, 4, 14)),
   (2029, (2029, 3, 30)),
   (2030, (2030, 4, 19))]

/-- The filter loop of `us_market_holidays`: the dates of the external
holidays whose name is in `market_and_observed_holidays`, in source order. -/
def extMarketDates (ext : ExtSource) (years : List Int) : List Int :=
  ((ext years).filter fun p => market_and_observed_holidays.contains p.2).map Prod.fst

/-- The New-Year block of `us_market_holidays` for one year: append
January 1 unless it is a Saturday, and additionally January 2 when
January 1 is a Sunday. -/
def newYearDates (year : Int) : List Int :=
  (if weekday (daysFromCivil year 1 1) ≠ 5 then [daysFromCivil year 1 1] else []) ++
  (if weekday (daysFromCivil year 1 1) = 6 then [daysFromCivil year 1 1 + 1] else [])

/-- The final loop of `us_market_holidays`:
`for year in years: valid_holidays.append(strptime(good_fridays[year]).date())`.
A year missing from the dict raises `KeyError`, abandoning the whole
call, which `none` models. -/
def goodFridayDates : List Int → Option (List Int)
  | [] => some []
  | year :: rest =>
    match (good_fridays.lookup year).map fun t => daysFromCivil t.1 t.2.1 t.2.2 with
    | none => none
    | some d => (goodFridayDates rest).map fun ds => d :: ds

/-- `us_market_holidays(years)`.  The argument is an `int` or a list of
years, as in the Python (`isinstance(years, int)` normalisation).  The
result is `none` when `good_fridays[year]` raises `KeyError` for some
requested year; otherwise the list of holiday dates, in the order the
Python builds it: filtered external dates, then the New-Year appends per
year, then the Good Friday of each year. -/
def us_market_holidays (ext : ExtSource) (years : Sum Int (List Int)) :
    Option (List Int) :=
  let years := match years with
    | .inl y => [y]
    | .inr ys => ys
  let valid_holidays := extMarketDates ext years ++ years.flatMap newYearDates
  (goodFridayDates years).map fun gfs => valid_holidays ++ gfs

/-- `b_is_stock_market_open()`, as a function of the current naive
US/Eastern timestamp (the Python reads the clock itself).  `none` models
the `KeyError` escaping from `us_market_holidays`.  Note the holiday test
compares the `strftime` string against a list of `date` objects, exactly
as the Python does. -/
def b_is_stock_market_open (ext : ExtSource) (now : Int) : Option Bool :=
  if weekday (dateOf now) > 4 then some false
  else
    match us_market_holidays ext (.inl (yearOf (dateOf now))) with
    | none => none
    | some hl =>
      if (hl.map PyVal.date).contains (PyVal.str (strftimeYMD (dateOf now))) then
        some false
      else if secOfDay now < 9 * 3600 + 30 * 60 then some false
      else if secOfDay now > 16 * 3600 then some false
      else some true

/-- One step of the `get_next_stock_market_days` per-year holiday cache:
`if year not in years: years.append(year); holidays += us_market_holidays(year)`.
`none` models the `KeyError` escaping from `us_market_holidays`. -/
def fetchHolidays (ext : ExtSource) (year : Int) (years : List Int)
    (holidays : List PyVal) : Option (List Int × List PyVal) :=
  if years.contains year then some (years, holidays)
  else
    match us_market_holidays ext (.inl year) with
    | none => none
    | some h => some (years ++ [year], holidays ++ h.map PyVal.date)

/-- The `while n_days < n_next_days` loop of `get_next_stock_market_days`,
with explicit loop state and fuel.  The holiday test compares the
`strftime` string against the cached list of `date` objects, exactly as
the Python does. -/
def get_next_go (ext : ExtSource) :
    Nat → Int → Nat → Nat → List Int → List PyVal → List Int →
    Option (List Int)
  | 0, _, _, _, _, _, _ => none
  | fuel + 1, last, nNext, nDays, years, holidays, acc =>
    if nDays < nNext then
      match fetchHolidays ext (yearOf (dateOf (last + 86400))) years holidays with
      | none => none
      | some (years, holidays) =>
        if weekday (dateOf (last + 86400)) > 4 then
          get_next_go ext fuel (last + 86400) nNext nDays years holidays acc
        else if holidays.contains (PyVal.str (strftimeYMD (dateOf (last + 86400)))) then
          get_next_go ext fuel (last + 86400) nNext nDays years holidays acc
        else
          get_next_go ext fuel (last + 86400) nNext (nDays + 1) years holidays
            (acc ++ [last + 86400])
    else some acc

/-- `get_next_stock_market_days(last_stock_day, n_next_days)`.  The fuel
`2 * n + 10` covers every run that terminates: at most two of any seven
consecutive candidates are skipped as weekends, and the result is `none`
exactly when the Python raises (`KeyError` from `us_market_holidays`) or
would loop past the fuel. -/
def get_next_stock_market_days (ext : ExtSource) (last_stock_day : Int)
    (n_next_days : Nat) : Option (List Int) :=
  get_next_go ext (2 * n_next_days + 10) last_stock_day n_next_days 0 [] [] []

/-- `get_last_time_market_was_open(dt)`.  `pubHol` is the generic
(unfiltered) `holidays.US` collaborator as a predicate on dates: the
Python membership test `dt.strftime("%Y-%m-%d") in us_holidays()` parses
the string back to the date, so it is exactly a date-membership test.
The final `dt.replace(hour=21, minute=0, second=0)` pins the clock to
21:00:00.  The recursion is fuelled; `none` models non-termination
(Python `RecursionError`). -/
def get_last_time_market_was_open (pubHol : Int → Bool) :
    Nat → Int → Option Int
  | 0, _ => none
  | fuel + 1, dt =>
    (if weekday (dateOf dt) > 4 then
       get_last_time_market_was_open pubHol fuel (dt - 86400)
     else some dt).bind fun dt1 =>
    (if pubHol (dateOf dt1) then
       get_last_time_market_was_open pubHol fuel (dt1 - 86400)
     else some dt1).bind fun dt2 =>
    some (dateOf dt2 * 86400 + 21 * 3600)

/-- Membership of a date in the holiday list computed by
`us_market_holidays`, `false` when the computation fails. -/
def holidayListContains (ext : ExtSource) (y : Int) (d : Int) : Bool :=
  ((us_market_holidays ext (.inl y)).getD []).contains d

/-- An external source that knows no holidays at all. -/
def extEmpty : ExtSource := fun _ => []

/-- The 2021 portion of the real `holidays.US` calendar (dates and names
as produced by the library for 2021, observed shifts included). -/
def usHol2021 : List (Int × String) :=
  [(daysFromCivil 2021 1 1, "New Year's Day"),
   (daysFromCivil 2021 1 18, "Martin Luther King Jr. Day"),
   (daysFromCivil 2021 2 15, "Washington's Birthday"),
   (daysFromCivil 2021 5 31, "Memorial Day"),
   (daysFromCivil 2021 7 4, "Independence Day"),
   (daysFromCivil 2021 7 5, "Independence Day (Observed)"),
   (daysFromCivil 2021 9 6, "Labor Day"),
   (daysFromCivil 2021 10 11, "Columbus Day"),
   (daysFromCivil 2021 11 11, "Veterans Day"),
   (daysFromCivil 2021 11 25, "Thanksgiving"),
   (daysFromCivil 2021 12 24, "Christmas Day (Observed)"),
   (daysFromCivil 2021 12 25, "Christmas Day")]

/-- An external source populated with the real 2021 US calendar. -/
def ext2021 : ExtSource := fun years =>
  if years.contains 2021 then usHol2021 else []

/-- A second source agreeing with `ext2021` on 2021 but not elsewhere. -/
def extAlt : ExtSource := fun years =>
  if years.contains 2021 then usHol2021 else [(0, "Bogus Day")]

/-- The Good Friday date `us_market_holidays` computes for one year,
`none` when the year is missing from the table. -/
def gfDate (y : Int) : Option Int :=
  (good_fridays.lookup y).map fun t => daysFromCivil t.1 t.2.1 t.2.2

section Lemmas

theorem lookup_eq_none_of {α β : Type} [BEq α] (y : α) :
    ∀ l : List (α × β), (∀ p ∈ l, (y == p.1) = false) → l.lookup y = none
  | [], _ => rfl
  | (k, b) :: es, h => by
    have hk := h (k, b) (List.mem_cons_self _ _)
    simp only [List.lookup, hk]
    exact lookup_eq_none_of y es fun p hp => h p (List.mem_cons_of_mem _ hp)

theorem gf_lookup_none (y : Int) (h : y < 2010 ∨ 2030 < y) :
    good_fridays.lookup y = none := by
  apply lookup_eq_none_of
  intro p hp
  fin_cases hp <;> (simp only [beq_eq_false_iff_ne]; omega)

theorem gf_ne_jan1 (y : Int) (h1 : 2010 ≤ y) (h2 : y ≤ 2030) :
    gfDate y ≠ some (daysFromCivil y 1 1) := by
  interval_cases y <;> decide

theorem gf_isSome (y : Int) (h1 : 2010 ≤ y) (h2 : y ≤ 2030) :
    (gfDate y).isSome = true := by
  interval_cases y <;> decide

theorem usmh_inl (ext : ExtSource) (y : Int) :
    us_market_holidays ext (.inl y) =
      (gfDate y).map fun d => extMarketDates ext [y] ++ newYearDates y ++ [d] := by
  cases h : good_fridays.lookup y with
  | none =>
    simp [us_market_holidays, goodFridayDates, gfDate, h]
  | some t =>
    simp [us_market_holidays, goodFridayDates, gfDate, h]

theorem ite_eq_else_of_eq_false {α : Sort _} {b : Bool} (h : b = false) (x y : α) :
    (if b = true then x else y) = y := by subst h; rfl

theorem pyStr_contains_false (s : String) :
    ∀ l : List PyVal, (∀ v ∈ l, ∃ d, v = PyVal.date d) →
      l.contains (PyVal.str s) = false
  | [], _ => rfl
  | a :: l, h => by
    rw [List.contains_cons]
    obtain ⟨d, rfl⟩ := h a (List.mem_cons_self _ _)
    rw [show (PyVal.str s == PyVal.date d) = false from rfl, Bool.false_or]
    exact pyStr_contains_false s l fun v hv => h v (List.mem_cons_of_mem _ hv)

end Lemmas

/-- C7: `us_market_holidays` has no entry in the Good Friday table for a
year outside 2010–2030 and the `KeyError` escapes: no list is returned. -/
theorem us_market_holidays_out_of_range (ext : ExtSource) (y : Int)
    (h : y < 2010 ∨ 2030 < y) : us_market_holidays ext (.inl y) = none := by
  rw [usmh_inl]
  rw [gfDate, gf_lookup_none y h]
  rfl

theorem us_market_holidays_out_of_range_witness :
    us_market_holidays extEmpty (.inl 2031) = none :=
  us_market_holidays_out_of_range extEmpty 2031 (by decide)

/-- C10: an integer year argument is normalised to the singleton list, so
`us_market_holidays(y)` and `us_market_holidays([y])` agree exactly. -/
theorem us_market_holidays_int_singleton (ext : ExtSource) (y : Int) :
    us_market_holidays ext (.inl y) = us_market_holidays ext (.inr [y]) := rfl

/-- C9: `us_market_holidays` is a pure function of its year list and of
the external holiday source's answer for that list: two sources that
agree there give identical results, with no other dependence or drift. -/
theorem us_market_holidays_deterministic (ext1 ext2 : ExtSource)
    (ys : List Int) (h : ext1 ys = ext2 ys) :
    us_market_holidays ext1 (.inr ys) = us_market_holidays ext2 (.inr ys) := by
  simp only [us_market_holidays, extMarketDates, h]

theorem us_market_holidays_deterministic_witness :
    us_market_holidays extAlt (.inr [2021]) = us_market_holidays ext2021 (.inr [2021]) :=
  us_market_holidays_deterministic extAlt ext2021 [2021] rfl

/-- C6: for a year of the 2010–2030 table, the holiday list contains
exactly the tabulated Good Friday date of that year. -/
theorem us_market_holidays_good_friday (ext : ExtSource) (y : Int)
    (h1 : 2010 ≤ y) (h2 : y ≤ 2030) :
    ∃ d hl, gfDate y = some d ∧ us_market_holidays ext (.inl y) = some hl ∧
      d ∈ hl := by
  obtain ⟨d, hd⟩ := Option.isSome_iff_exists.mp (gf_isSome y h1 h2)
  refine ⟨d, extMarketDates ext [y] ++ newYearDates y ++ [d], hd, ?_, by simp⟩
  rw [usmh_inl, hd]
  rfl

theorem us_market_holidays_good_friday_witness :
    ∃ d hl, gfDate 2021 = some d ∧
      us_market_holidays ext2021 (.inl 2021) = some hl ∧ d ∈ hl :=
  us_market_holidays_good_friday ext2021 2021 (by decide) (by decide)

/-- C5: for a tabulated year whose external market-named holidays do not
themselves fall on January 1 (true of the real collaborator, whose
New-Year entries are not among the seven filtered names), the returned
list contains January 1 exactly when January 1 is not a Saturday, and
when January 1 is a Sunday it also contains the following Monday. -/
theorem us_market_holidays_new_year (ext : ExtSource) (y : Int)
    (hl : List Int) (h1 : 2010 ≤ y) (h2 : y ≤ 2030)
    (hext : daysFromCivil y 1 1 ∉ extMarketDates ext [y])
    (hres : us_market_holidays ext (.inl y) = some hl) :
    (daysFromCivil y 1 1 ∈ hl ↔ weekday (daysFromCivil y 1 1) ≠ 5) ∧
    (weekday (daysFromCivil y 1 1) = 6 → daysFromCivil y 1 1 + 1 ∈ hl) := by
  rw [usmh_inl] at hres
  cases hgf : gfDate y with
  | none => rw [hgf] at hres; exact absurd hres (by simp)
  | some d =>
    rw [hgf, Option.map_some'] at hres
    have hhl : hl = extMarketDates ext [y] ++ newYearDates y ++ [d] :=
      (Option.some.injEq _ _ ▸ hres).symm
    subst hhl
    constructor
    · constructor
      · intro hmem heq
        rcases List.mem_append.mp hmem with hmem | hmem
        · rcases List.mem_append.mp hmem with hmem | hmem
          · exact hext hmem
          · rw [newYearDates, heq] at hmem
            simp at hmem
        · simp only [List.mem_singleton] at hmem
          rw [← hmem] at hgf
          exact gf_ne_jan1 y h1 h2 hgf
      · intro hne
        refine List.mem_append.mpr (Or.inl (List.mem_append.mpr (Or.inr ?_)))
        rw [newYearDates, if_pos hne]
        simp
    · intro h6
      refine List.mem_append.mpr (Or.inl (List.mem_append.mpr (Or.inr ?_)))
      rw [newYearDates, if_pos (by omega : weekday (daysFromCivil y 1 1) ≠ 5),
        if_pos h6]
      simp

theorem us_market_holidays_new_year_witness :
    daysFromCivil 2021 1 1 ∈
      [18645, 18673, 18778, 18812, 18813, 18876, 18956, 18985, 18986,
       18628, 18719] :=
  (us_market_holidays_new_year ext2021 2021
      [18645, 18673, 18778, 18812, 18813, 18876, 18956, 18985, 18986,
       18628, 18719]
      (by decide) (by decide) (by decide) (by decide)).1.mpr (by decide)

theorem fetchHolidays_allDates (ext : ExtSource) (year : Int)
    (years : List Int) (holidays : List PyVal) (years1 : List Int)
    (holidays1 : List PyVal)
    (h : fetchHolidays ext year years holidays = some (years1, holidays1))
    (hd : ∀ v ∈ holidays, ∃ d, v = PyVal.date d) :
    ∀ v ∈ holidays1, ∃ d, v = PyVal.date d := by
  unfold fetchHolidays at h
  split at h
  · obtain ⟨-, rfl⟩ := Prod.mk.injEq .. ▸ Option.some.injEq .. ▸ h
    exact hd
  · cases hm : us_market_holidays ext (.inl year) with
    | none => rw [hm] at h; exact absurd h (by simp)
    | some hlist =>
      rw [hm] at h
      obtain ⟨-, rfl⟩ := Prod.mk.injEq .. ▸ Option.some.injEq .. ▸ h
      intro v hv
      rcases List.mem_append.mp hv with hv | hv
      · exact hd v hv
      · obtain ⟨d, -, rfl⟩ := List.mem_map.mp hv
        exact ⟨d, rfl⟩

theorem get_next_go_spec (ext : ExtSource) :
    ∀ (fuel : Nat) (last s : Int) (nNext nDays : Nat) (years : List Int)
      (holidays : List PyVal) (acc l : List Int),
      get_next_go ext fuel last nNext nDays years holidays acc = some l →
      (∀ v ∈ holidays, ∃ d, v = PyVal.date d) →
      nDays ≤ nNext → acc.length = nDays →
      last % 86400 = s % 86400 →
      (∀ x ∈ acc, x ≤ last ∧ x % 86400 = s % 86400 ∧
        weekday (dateOf x) ≤ 4) →
      acc.Pairwise (· < ·) →
      l.length = nNext ∧ l.Pairwise (· < ·) ∧
        ∀ x ∈ l, x % 86400 = s % 86400 ∧ weekday (dateOf x) ≤ 4 := by
  intro fuel
  induction fuel with
  | zero =>
    intro last s nNext nDays years holidays acc l hgo
    exact absurd hgo (by simp [get_next_go])
  | succ fuel ih =>
    intro last s nNext nDays years holidays acc l hgo hdates hle hlen hmod hacc hpw
    rw [get_next_go] at hgo
    by_cases hlt : nDays < nNext
    · rw [if_pos hlt] at hgo
      split at hgo
      · exact absurd hgo (by simp)
      · rename_i years1 holidays1 heq
        have hdates1 := fetchHolidays_allDates ext _ years holidays years1 holidays1 heq hdates
        have hmod1 : (last + 86400) % 86400 = s % 86400 := by omega
        by_cases hw : weekday (dateOf (last + 86400)) > 4
        · rw [if_pos hw] at hgo
          exact ih (last + 86400) s nNext nDays years1 holidays1 acc l hgo hdates1
            hle hlen hmod1
            (fun x hx => ⟨by have := (hacc x hx).1; omega, (hacc x hx).2.1, (hacc x hx).2.2⟩)
            hpw
        · rw [if_neg hw] at hgo
          rw [ite_eq_else_of_eq_false
            (pyStr_contains_false (strftimeYMD (dateOf (last + 86400))) holidays1 hdates1)] at hgo
          refine ih (last + 86400) s nNext (nDays + 1) years1 holidays1
            (acc ++ [last + 86400]) l hgo hdates1 (by omega) (by simp [hlen]) hmod1
            ?_ ?_
          · intro x hx
            rcases List.mem_append.mp hx with hx | hx
            · exact ⟨by have := (hacc x hx).1; omega, (hacc x hx).2.1, (hacc x hx).2.2⟩
            · rw [List.mem_singleton.mp hx]
              exact ⟨le_refl _, hmod1, by omega⟩
          · refine List.pairwise_append.mpr ⟨hpw, List.pairwise_singleton .. , ?_⟩
            intro a ha b hb
            rw [List.mem_singleton.mp hb]
            have := (hacc a ha).1
            omega
    · rw [if_neg hlt] at hgo
      have hal : acc = l := Option.some.injEq .. ▸ hgo
      subst hal
      have hnn : nDays = nNext := by omega
      exact ⟨by rw [hlen, hnn], hpw, fun x hx => ⟨(hacc x hx).2.1, (hacc x hx).2.2⟩⟩

/-- C3 (amended): whenever `get_next_stock_market_days` returns a list
(the Python neither raises a `KeyError` on a year outside the Good Friday
table nor loops), that list has exactly `n` entries, strictly increasing,
each with the start's clock value, none on a Saturday or Sunday; and for
`n = 0` it always returns the empty list without advancing. -/
theorem get_next_stock_market_days_spec (ext : ExtSource) (s : Int) (n : Nat) :
    (∀ l, get_next_stock_market_days ext s n = some l →
      l.length = n ∧ l.Pairwise (· < ·) ∧
      (∀ x ∈ l, x % 86400 = s % 86400 ∧ weekday (dateOf x) ≤ 4) ∧
      (n = 0 → l = [])) ∧
    get_next_stock_market_days ext s 0 = some [] := by
  constructor
  · intro l hl
    have h := get_next_go_spec ext (2 * n + 10) s s n 0 [] [] [] l hl
      (by simp) (Nat.zero_le _) rfl rfl (by simp) List.Pairwise.nil
    exact ⟨h.1, h.2.1, h.2.2,
      fun hn => List.length_eq_zero.mp (by rw [h.1, hn])⟩
  · rfl

theorem get_next_stock_market_days_spec_witness :
    get_next_stock_market_days ext2021 (18810 * 86400 + 43200) 2 =
      some [18813 * 86400 + 43200, 18814 * 86400 + 43200] ∧
    ([18813 * 86400 + 43200, 18814 * 86400 + 43200] : List Int).length = 2 ∧
    ([18813 * 86400 + 43200, 18814 * 86400 + 43200] : List Int).Pairwise (· < ·) ∧
    ∀ x ∈ ([18813 * 86400 + 43200, 18814 * 86400 + 43200] : List Int),
      x % 86400 = (18810 * 86400 + 43200 : Int) % 86400 ∧ weekday (dateOf x) ≤ 4 := by
  have heq : get_next_stock_market_days ext2021 (18810 * 86400 + 43200) 2 =
      some [18813 * 86400 + 43200, 18814 * 86400 + 43200] := by decide
  have h := (get_next_stock_market_days_spec ext2021 (18810 * 86400 + 43200) 2).1
    [18813 * 86400 + 43200, 18814 * 86400 + 43200] heq
  exact ⟨heq, h.1, h.2.1, h.2.2.1⟩

/-- C3 counterexample: starting Tuesday 2030-12-31 12:00 with n = 1, the
first candidate is 2031-01-01, year 2031 is missing from `good_fridays`,
and the `KeyError` aborts the call: no list of length 1 (or any list) is
returned, against the claim that every start and count succeeds. -/
theorem get_next_stock_market_days_year_crash :
    get_next_stock_market_days extEmpty (daysFromCivil 2030 12 31 * 86400 + 43200) 1 =
      none := by decide

/-- C4 (amended): the weekend check precedes everything, so any Saturday
or Sunday yields false for every time of day; and on a weekday whose
year's holiday list is computable (2010–2030) and whose date is not a
market holiday, the result is false before 09:30:00, false after
16:00:00, and true inside the window. -/
theorem b_is_stock_market_open_spec (ext : ExtSource) (now : Int) :
    (weekday (dateOf now) > 4 → b_is_stock_market_open ext now = some false) ∧
    (∀ hl, us_market_holidays ext (.inl (yearOf (dateOf now))) = some hl →
      weekday (dateOf now) ≤ 4 → dateOf now ∉ hl →
      (secOfDay now < 9 * 3600 + 30 * 60 →
        b_is_stock_market_open ext now = some false) ∧
      (secOfDay now > 16 * 3600 → b_is_stock_market_open ext now = some false) ∧
      (9 * 3600 + 30 * 60 ≤ secOfDay now → secOfDay now ≤ 16 * 3600 →
        b_is_stock_market_open ext now = some true)) := by
  constructor
  · intro hw
    unfold b_is_stock_market_open
    rw [if_pos hw]
  · intro hl hhl hw _hnh
    unfold b_is_stock_market_open
    rw [if_neg (by omega : ¬ weekday (dateOf now) > 4), hhl]
    dsimp only
    rw [ite_eq_else_of_eq_false (pyStr_contains_false (strftimeYMD (dateOf now))
      (hl.map PyVal.date) (fun v hv => by
        obtain ⟨d, -, rfl⟩ := List.mem_map.mp hv; exact ⟨d, rfl⟩))]
    refine ⟨fun h => by rw [if_pos h], fun h => ?_, fun h1 h2 => ?_⟩
    · rw [if_neg (by omega), if_pos h]
    · rw [if_neg (by omega), if_neg (by omega)]

theorem b_is_stock_market_open_spec_witness :
    b_is_stock_market_open ext2021 (18818 * 86400 + 36000) = some false ∧
    b_is_stock_market_open ext2021 (18820 * 86400 + 36000) = some true ∧
    b_is_stock_market_open ext2021 (18820 * 86400 + 9 * 3600) = some false ∧
    b_is_stock_market_open ext2021 (18820 * 86400 + 16 * 3600 + 1800) = some false := by
  have hsat := (b_is_stock_market_open_spec ext2021 (18818 * 86400 + 36000)).1
    (by decide)
  have hmon := (b_is_stock_market_open_spec ext2021 (18820 * 86400 + 36000)).2
    [18645, 18673, 18778, 18812, 18813, 18876, 18956, 18985, 18986, 18628, 18719]
    (by decide) (by decide) (by decide)
  have hmon2 := (b_is_stock_market_open_spec ext2021 (18820 * 86400 + 9 * 3600)).2
    [18645, 18673, 18778, 18812, 18813, 18876, 18956, 18985, 18986, 18628, 18719]
    (by decide) (by decide) (by decide)
  have hmon3 := (b_is_stock_market_open_spec ext2021
      (18820 * 86400 + 16 * 3600 + 1800)).2
    [18645, 18673, 18778, 18812, 18813, 18876, 18956, 18985, 18986, 18628, 18719]
    (by decide) (by decide) (by decide)
  exact ⟨hsat, hmon.2.2 (by decide) (by decide), hmon2.1 (by decide),
    hmon3.2.1 (by decide)⟩

/-- C4 counterexample: Monday 2031-01-06 at 10:00 Eastern is a weekday
inside trading hours and in no computed holiday set, yet the function
does not return true: `us_market_holidays(2031)` raises `KeyError` (2031
is outside the Good Friday table) and the exception escapes. -/
theorem b_is_stock_market_open_year_crash :
    weekday (daysFromCivil 2031 1 6) ≤ 4 ∧
    b_is_stock_market_open extEmpty (daysFromCivil 2031 1 6 * 86400 + 36000) =
      none := by decide

/-- C1 refuted by the code: starting Friday 2021-07-02 12:00 with n = 2,
the returned sessions are Monday 2021-07-05 and Tuesday 2021-07-06, yet
2021-07-05 (day 18813, the observed Independence Day) is in
`us_market_holidays(2021)`.  The skip never fires because
`last_stock_day.strftime("%Y-%m-%d") in holidays` compares a `str`
against `date` objects, which is always `False` in Python. -/
theorem get_next_stock_market_days_holiday_bug :
    get_next_stock_market_days ext2021 (18810 * 86400 + 43200) 2 =
      some [18813 * 86400 + 43200, 18814 * 86400 + 43200] ∧
    holidayListContains ext2021 2021 18813 = true ∧
    dateOf (18813 * 86400 + 43200) = 18813 ∧
    daysFromCivil 2021 7 5 = 18813 ∧ daysFromCivil 2021 7 2 = 18810 := by decide

/-- C2 refuted by the code: Monday 2021-07-05 (observed Independence Day,
present in `us_market_holidays(2021)`) at 10:00 Eastern reports the
market open.  The holiday test `now.strftime("%Y-%m-%d") in
us_market_holidays(now.year)` compares a `str` against a list of `date`
objects and is always `False`. -/
theorem b_is_stock_market_open_holiday_bug :
    b_is_stock_market_open ext2021 (18813 * 86400 + 36000) = some true ∧
    holidayListContains ext2021 2021 18813 = true ∧
    weekday 18813 = 0 ∧ daysFromCivil 2021 7 5 = 18813 := by decide

/-- A one-holiday generic public-holiday source marking 2021-07-05 (the
library's observed Independence Day entry), used as a concrete
collaborator. -/
def pubHolJul5 : Int → Bool := fun d => d == daysFromCivil 2021 7 5

/-- C8: whatever the generic public-holiday collaborator, whenever the
recursion returns (the Python does not exhaust the stack), the result's
clock is pinned to 21:00:00, its date is neither Saturday nor Sunday and
not a public holiday, and the date was reached from the input by whole
backward 24-hour steps. -/
theorem get_last_time_market_was_open_spec (pubHol : Int → Bool) :
    ∀ (fuel : Nat) (dt r : Int),
      get_last_time_market_was_open pubHol fuel dt = some r →
      secOfDay r = 21 * 3600 ∧ weekday (dateOf r) ≤ 4 ∧
      pubHol (dateOf r) = false ∧
      ∃ k : Nat, dateOf r = dateOf dt - (k : Int) := by
  intro fuel
  induction fuel with
  | zero =>
    intro dt r h
    exact absurd h (by simp [get_last_time_market_was_open])
  | succ fuel ih =>
    intro dt r h
    rw [get_last_time_market_was_open] at h
    have hdate : ∀ d : Int, dateOf (d * 86400 + 21 * 3600) = d := by
      intro d; unfold dateOf; omega
    have hsec : ∀ d : Int, secOfDay (d * 86400 + 21 * 3600) = 21 * 3600 := by
      intro d; unfold secOfDay; omega
    have hback : ∀ a : Int, dateOf (a - 86400) = dateOf a - 1 := by
      intro a; unfold dateOf; omega
    by_cases hw : weekday (dateOf dt) > 4
    · rw [if_pos hw] at h
      cases h1 : get_last_time_market_was_open pubHol fuel (dt - 86400) with
      | none => rw [h1] at h; exact absurd h (by simp)
      | some dt1 =>
        rw [h1, Option.some_bind] at h
        obtain ⟨hs1, hw1, hp1, k1, hk1⟩ := ih (dt - 86400) dt1 h1
        rw [ite_eq_else_of_eq_false hp1, Option.some_bind] at h
        have hr : r = dateOf dt1 * 86400 + 21 * 3600 := (Option.some.inj h).symm
        subst hr
        refine ⟨hsec _, ?_, ?_, ⟨k1 + 1, ?_⟩⟩
        · rw [hdate]; exact hw1
        · rw [hdate]; exact hp1
        · rw [hdate]; rw [hback] at hk1; push_cast; omega
    · rw [if_neg hw, Option.some_bind] at h
      by_cases hp : pubHol (dateOf dt)
      · rw [if_pos hp] at h
        cases h2 : get_last_time_market_was_open pubHol fuel (dt - 86400) with
        | none => rw [h2] at h; exact absurd h (by simp)
        | some dt2 =>
          rw [h2, Option.some_bind] at h
          obtain ⟨hs2, hw2, hp2, k2, hk2⟩ := ih (dt - 86400) dt2 h2
          have hr : r = dateOf dt2 * 86400 + 21 * 3600 := (Option.some.inj h).symm
          subst hr
          refine ⟨hsec _, ?_, ?_, ⟨k2 + 1, ?_⟩⟩
          · rw [hdate]; exact hw2
          · rw [hdate]; exact hp2
          · rw [hdate]; rw [hback] at hk2; push_cast; omega
      · rw [ite_eq_else_of_eq_false (Bool.not_eq_true _ ▸ hp), Option.some_bind] at h
        have hr : r = dateOf dt * 86400 + 21 * 3600 := (Option.some.inj h).symm
        subst hr
        refine ⟨hsec _, ?_, ?_, ⟨0, ?_⟩⟩
        · rw [hdate]; omega
        · rw [hdate]; exact Bool.not_eq_true _ ▸ hp
        · rw [hdate]; push_cast; omega

theorem get_last_time_market_was_open_spec_witness :
    secOfDay (18810 * 86400 + 75600) = 21 * 3600 ∧
    weekday (dateOf (18810 * 86400 + 75600)) ≤ 4 ∧
    pubHolJul5 (dateOf (18810 * 86400 + 75600)) = false ∧
    ∃ k : Nat, dateOf (18810 * 86400 + 75600) =
      dateOf (18813 * 86400 + 52620) - (k : Int) :=
  get_last_time_market_was_open_spec pubHolJul5 10 (18813 * 86400 + 52620)
    (18810 * 86400 + 75600) (by decide)
